import Mathlib

/-!
Verification of the Spyder repository slice: the editor's
trailing-whitespace normalizer (spec §4.1, tests in
`spyder/plugins/editor/widgets/tests/test_codeeditor.py`) and the
installer artifact naming logic of `installers-conda/build_installers.py`.
-/

namespace Spyder

/-! ## Whitespace Normalizer data model -/

/-- Trigger of a LeftLine event (spec §4.1): newline insertion, vertical
arrow-key move, or pointer click relocating the cursor to another line. -/
inductive Trigger where
  | NEWLINE
  | ARROW_MOVE
  | POINTER_MOVE
deriving DecidableEq, Repr

/-- A trailing-whitespace character: space or tab (spec §4.1 step 3). -/
def isTrailWS (c : Char) : Bool :=
  c == ' ' || c == '\t'

/-- Remove all trailing whitespace characters (space, tab) from a line. -/
def rstrip (s : String) : String :=
  String.mk ((s.data.reverse.dropWhile isTrailWS).reverse)

/-- A line has trailing whitespace when its last character is a space
or a tab. -/
def hasTrailingWS (s : String) : Bool :=
  match s.data.reverse with
  | [] => false
  | c :: _ => isTrailWS c

/-- Editor state: the buffer as an ordered sequence of lines, and the
cursor position (line index, column index) (spec §3). -/
structure EditorState where
  buffer : List String
  cursorLine : Nat
  cursorCol : Nat
deriving DecidableEq, Repr

/-- Modelled from the spec: the Whitespace Normalizer contract
`on_leave_line(buffer, left_line_index, trigger) -> buffer'` of spec §4.1.
The implementation file (`codeeditor.py`) is not part of the visible
source slice — only its tests are — so this definition follows the
spec's steps 1–4 verbatim.  The syntax-aware "is the line's trailing
whitespace inside a String-Literal Region" query is an external
collaborator capability (spec §6) and is passed in as the oracle
`inLit`.  Step 1: out-of-bounds index is a silent no-op.  Step 2: a line
inside a String-Literal Region is preserved exactly.  Step 3: otherwise
trailing spaces and tabs are removed.  Step 4: the line is replaced only
when the stripped content differs. -/
def on_leave_line (inLit : List String → Nat → Bool) (buffer : List String)
    (left_line_index : Nat) (trigger : Trigger) : List String :=
  if h : left_line_index < buffer.length then
    if inLit buffer left_line_index then
      buffer
    else
      if rstrip buffer[left_line_index] = buffer[left_line_index] then buffer
      else buffer.set left_line_index (rstrip buffer[left_line_index])
  else
    buffer

/-- Modelled from the spec: the Normalizer acting on the full editor
state.  Replacing the left line is the only mutation; the cursor
position is not touched (spec §4.1 step 4). -/
def on_leave_line_ev (inLit : List String → Nat → Bool) (st : EditorState)
    (left_line_index : Nat) (trigger : Trigger) : EditorState :=
  { st with buffer := on_leave_line inLit st.buffer left_line_index trigger }

/-- Modelled from the spec: handling of a cursor-relocation event (arrow
key or pointer click).  A LeftLine event is produced only when the
active line changes (spec §3); purely horizontal motion within the same
line only moves the cursor and never triggers evaluation (spec §4.1
inputs). -/
def moveCursor (inLit : List String → Nat → Bool) (st : EditorState)
    (newLine newCol : Nat) (trigger : Trigger) : EditorState :=
  if newLine = st.cursorLine then
    { st with cursorCol := newCol }
  else
    { buffer := on_leave_line inLit st.buffer st.cursorLine trigger
      cursorLine := newLine
      cursorCol := newCol }

/-- Modelled from the spec: handling of the newline-insertion action
(spec §4.1 step 5).  The cursor line is split at the cursor column; the
newly created line below receives the auto-indentation (computed by an
external collaborator, spec §6, passed here as `autoIndent`) followed by
the text after the cursor.  The Normalizer is then applied to the line
that existed before the newline was inserted — the line above — and
never to the newly created line. -/
def pressEnter (inLit : List String → Nat → Bool) (autoIndent : String)
    (st : EditorState) : EditorState :=
  match st.buffer[st.cursorLine]? with
  | none => st
  | some line =>
    { buffer :=
        on_leave_line inLit
          (st.buffer.take st.cursorLine
            ++ [String.mk (line.data.take st.cursorCol),
                autoIndent ++ String.mk (line.data.drop st.cursorCol)]
            ++ st.buffer.drop (st.cursorLine + 1))
          st.cursorLine Trigger.NEWLINE
      cursorLine := st.cursorLine + 1
      cursorCol := autoIndent.length }

/-! ## Helper lemmas about `rstrip` and list surgery -/

theorem dropWhile_dropWhile_eq {α : Type} (p : α → Bool) (l : List α) :
    (l.dropWhile p).dropWhile p = l.dropWhile p := by
  induction l with
  | nil => rfl
  | cons a t ih =>
    by_cases h : p a
    · simpa [List.dropWhile_cons, h] using ih
    · simp [List.dropWhile_cons, h]

theorem rstrip_rstrip (s : String) : rstrip (rstrip s) = rstrip s := by
  cases s with
  | mk data => simp [rstrip, dropWhile_dropWhile_eq]

theorem getElem?_middle {α : Type} (pre post : List α) (a b : α) :
    (pre ++ [a, b] ++ post)[pre.length]? = some a := by
  induction pre with
  | nil => rfl
  | cons c t ih => simpa using ih

theorem getElem_middle {α : Type} (pre post : List α) (a b : α)
    (h : pre.length < (pre ++ [a, b] ++ post).length) :
    (pre ++ [a, b] ++ post)[pre.length] = a := by
  have h2 := getElem?_middle pre post a b
  rw [List.getElem?_eq_getElem h] at h2
  exact Option.some.inj h2

theorem set_middle {α : Type} (pre post : List α) (a b x : α) :
    (pre ++ [a, b] ++ post).set pre.length x = pre ++ [x, b] ++ post := by
  induction pre with
  | nil => rfl
  | cons c t ih => simp [ih]

theorem length_middle {α : Type} (pre post : List α) (a b : α) :
    (pre ++ [a, b] ++ post).length = pre.length + 2 + post.length := by
  simp
  omega

/-! ## Installer build script (`installers-conda/build_installers.py`) -/

namespace Installers

/-- `WINDOWS = os.name == "nt"` (build_installers.py line 44). -/
def WINDOWS (osName : String) : Bool :=
  osName == "nt"

/-- `MACOS = sys.platform == "darwin"` (line 45). -/
def MACOS (sysPlatform : String) : Bool :=
  sysPlatform == "darwin"

/-- `LINUX = sys.platform.startswith("linux")` (line 46). -/
def LINUX (sysPlatform : String) : Bool :=
  "linux".data.isPrefixOf sysPlatform.data

/-- Python's `str.lower()` restricted to its ASCII action, which is the
only part exercised by machine names. -/
def pyLower (s : String) : String :=
  String.mk (s.data.map Char.toLower)

/-- Fuelled kernel of `pyReplace`: replaces non-overlapping occurrences
of `pat` left to right, as Python's `str.replace` does for a non-empty
pattern.  One unit of fuel is spent per step, so fuel equal to the list
length always suffices. -/
def replaceFuel (pat rep : List Char) : Nat → List Char → List Char
  | 0, l => l
  | _ + 1, [] => []
  | fuel + 1, c :: rest =>
    if pat.isPrefixOf (c :: rest) && !pat.isEmpty then
      rep ++ replaceFuel pat rep fuel ((c :: rest).drop pat.length)
    else
      c :: replaceFuel pat rep fuel rest

/-- Python's `s.replace(pat, rep)` for a non-empty pattern. -/
def pyReplace (s pat rep : String) : String :=
  String.mk (replaceFuel pat.data rep.data s.data.length s.data)

/-- `ARCH` (lines 47–51): `"arm64"` when the environment variable
`CONSTRUCTOR_TARGET_PLATFORM` is `"osx-arm64"`, otherwise
`(platform.machine() or "generic").lower().replace("amd64", "x86_64")`.
`targetPlatform` is `none` when the variable is unset, and Python's
`or` selects `"generic"` exactly when `machine` is the empty string. -/
def ARCH (targetPlatform : Option String) (machine : String) : String :=
  if targetPlatform = some "osx-arm64" then "arm64"
  else pyReplace (pyLower (if machine = "" then "generic" else machine))
        "amd64" "x86_64"

/-- `EXT, OS` (lines 53–60): `("exe", "Windows")` on Windows, then
`("sh", "Linux")` on Linux, then `("pkg", "macOS")` on macOS, and a
`RuntimeError` (modelled as `none`) otherwise. -/
def EXT_OS (osName sysPlatform : String) : Option (String × String) :=
  if WINDOWS osName then some ("exe", "Windows")
  else if LINUX sysPlatform then some ("sh", "Linux")
  else if MACOS sysPlatform then some ("pkg", "macOS")
  else none

/-- `APP = "Spyder"` (line 42). -/
def APP : String := "Spyder"

/-- The file name of `OUTPUT_FILE = DIST / f"{APP}-{SPYVER}-{OS}-{ARCH}.{EXT}"`
(line 123); the `DIST` directory prefix is filesystem context and out of
scope.  `none` models the `RuntimeError` raised for an unrecognized OS
before line 123 is reached. -/
def OUTPUT_FILE_name (spyver osName sysPlatform : String)
    (targetPlatform : Option String) (machine : String) : Option String :=
  (EXT_OS osName sysPlatform).map fun p =>
    APP ++ "-" ++ spyver ++ "-" ++ p.2 ++ "-"
      ++ ARCH targetPlatform machine ++ "." ++ p.1

/-- The artifact-name shape stated by the claim:
`"Spyder-<version>-<OS>-<ARCH>.<ext>"`. -/
def artifactNameFormat (version os arch ext : String) : String :=
  "Spyder-" ++ version ++ "-" ++ os ++ "-" ++ arch ++ "." ++ ext

/-- The `ARCH` rule as the claim words it: `"arm64"` for target platform
`"osx-arm64"`, otherwise the lowercased machine name with `"amd64"`
replaced by `"x86_64"`, defaulting to `"generic"` for an empty machine
name. -/
def ARCH_claim (targetPlatform : Option String) (machine : String) : String :=
  if targetPlatform = some "osx-arm64" then "arm64"
  else if machine = "" then "generic"
  else pyReplace (pyLower machine) "amd64" "x86_64"

end Installers

/-! ## Behavior lemmas for the Whitespace Normalizer -/

/-- The Normalizer is the identity whenever the left line is already
stripped (or out of bounds). -/
theorem on_leave_line_eq_self (inLit : List String → Nat → Bool)
    (buffer : List String) (idx : Nat) (trig : Trigger)
    (hk : ∀ h : idx < buffer.length, rstrip buffer[idx] = buffer[idx]) :
    on_leave_line inLit buffer idx trig = buffer := by
  unfold on_leave_line
  by_cases h : idx < buffer.length
  · rw [dif_pos h]
    by_cases hlit : inLit buffer idx
    · rw [if_pos hlit]
    · rw [if_neg hlit, if_pos (hk h)]
  · exact dif_neg h

/-- The Normalizer on a buffer split as `pre ++ [a, b] ++ post`,
evaluated at the line `a`: the line is replaced by its stripped content
and nothing else moves. -/
theorem on_leave_line_middle (inLit : List String → Nat → Bool)
    (pre post : List String) (a b : String) (trig : Trigger)
    (hlit : inLit (pre ++ [a, b] ++ post) pre.length = false) :
    on_leave_line inLit (pre ++ [a, b] ++ post) pre.length trig =
      pre ++ [rstrip a, b] ++ post := by
  have hlen : pre.length < (pre ++ [a, b] ++ post).length := by
    rw [length_middle]; omega
  unfold on_leave_line
  rw [dif_pos hlen, if_neg (by simpa using hlit), getElem_middle pre post a b hlen]
  by_cases hstr : rstrip a = a
  · rw [if_pos hstr, hstr]
  · rw [if_neg hstr, set_middle]

/-! ## Claims about the Whitespace Normalizer -/

/-- Claim C1: for every buffer and every line in it that has trailing
whitespace and is not inside a string-literal region, invoking
`on_leave_line` for that line with any trigger yields a buffer in which
the line equals its original content with all trailing whitespace
removed, and every other line is unchanged. -/
theorem c1_strip_left_line (inLit : List String → Nat → Bool)
    (buffer : List String) (idx : Nat) (trig : Trigger)
    (h : idx < buffer.length)
    (hws : hasTrailingWS buffer[idx] = true)
    (hlit : inLit buffer idx = false) :
    (on_leave_line inLit buffer idx trig)[idx]? = some (rstrip buffer[idx]) ∧
    ∀ j, j ≠ idx → (on_leave_line inLit buffer idx trig)[j]? = buffer[j]? := by
  unfold on_leave_line
  rw [dif_pos h, if_neg (by simp [hlit])]
  by_cases hstr : rstrip buffer[idx] = buffer[idx]
  · rw [if_pos hstr]
    exact ⟨by rw [hstr]; exact List.getElem?_eq_getElem h, fun j _ => rfl⟩
  · rw [if_neg hstr]
    exact ⟨List.getElem?_set_eq_of_lt _ h,
      fun j hj => List.getElem?_set_ne (Ne.symm hj)⟩

/-- Witness for C1: the arrow-move test scenario
`"somecode = 1\nmyvar = 2 "`, leaving line 1. -/
theorem c1_strip_left_line_witness :
    ((1 : Nat) < (["somecode = 1", "myvar = 2 "] : List String).length) ∧
    hasTrailingWS (["somecode = 1", "myvar = 2 "] : List String)[1] = true ∧
    (on_leave_line (fun _ _ => false) ["somecode = 1", "myvar = 2 "] 1
        Trigger.ARROW_MOVE)[1]? = some "myvar = 2" ∧
    (on_leave_line (fun _ _ => false) ["somecode = 1", "myvar = 2 "] 1
        Trigger.ARROW_MOVE)[0]? = some "somecode = 1" := by
  have h := c1_strip_left_line (fun _ _ => false) ["somecode = 1", "myvar = 2 "]
      1 Trigger.ARROW_MOVE (by decide) (by decide) rfl
  refine ⟨by decide, by decide, ?_, ?_⟩
  · rw [h.1]; decide
  · rw [h.2 0 (by decide)]; decide

/-- Claim C2: for every line whose trailing whitespace lies within a
string-literal region (the oracle answers `true`), `on_leave_line` is a
no-op for every trigger: the whole buffer, that line included, is
preserved verbatim. -/
theorem c2_literal_line_noop (inLit : List String → Nat → Bool)
    (buffer : List String) (idx : Nat) (trig : Trigger)
    (hlit : inLit buffer idx = true) :
    on_leave_line inLit buffer idx trig = buffer := by
  unfold on_leave_line
  by_cases h : idx < buffer.length
  · rw [dif_pos h, if_pos hlit]
  · exact dif_neg h

/-- Witness for C2: the open triple-quoted-string test scenario, whose
left line `"    "` consists entirely of whitespace and is preserved. -/
theorem c2_literal_line_noop_witness :
    ((fun _ i => i == 1) : List String → Nat → Bool)
        ["\"\"\"This is a string with important spaces", "    "] 1 = true ∧
    on_leave_line (fun _ i => i == 1)
        ["\"\"\"This is a string with important spaces", "    "] 1
        Trigger.NEWLINE =
      ["\"\"\"This is a string with important spaces", "    "] :=
  ⟨rfl, c2_literal_line_noop (fun _ i => i == 1)
    ["\"\"\"This is a string with important spaces", "    "] 1
    Trigger.NEWLINE rfl⟩

/-- Claim C3: the only mutation `on_leave_line` ever performs is the
replacement of the line at `left_line_index` with its stripped content;
every other line is unchanged and the cursor position is untouched. -/
theorem c3_only_left_line_mutated (inLit : List String → Nat → Bool)
    (st : EditorState) (idx : Nat) (trig : Trigger) :
    (on_leave_line_ev inLit st idx trig).cursorLine = st.cursorLine ∧
    (on_leave_line_ev inLit st idx trig).cursorCol = st.cursorCol ∧
    (∀ j, j ≠ idx →
      (on_leave_line_ev inLit st idx trig).buffer[j]? = st.buffer[j]?) ∧
    ((on_leave_line_ev inLit st idx trig).buffer = st.buffer ∨
      ∃ h : idx < st.buffer.length,
        (on_leave_line_ev inLit st idx trig).buffer =
          st.buffer.set idx (rstrip st.buffer[idx])) := by
  have key : on_leave_line inLit st.buffer idx trig = st.buffer ∨
      ∃ h : idx < st.buffer.length,
        on_leave_line inLit st.buffer idx trig =
          st.buffer.set idx (rstrip st.buffer[idx]) := by
    unfold on_leave_line
    by_cases h : idx < st.buffer.length
    · rw [dif_pos h]
      by_cases hlit : inLit st.buffer idx
      · exact Or.inl (by rw [if_pos hlit])
      · by_cases hstr : rstrip st.buffer[idx] = st.buffer[idx]
        · exact Or.inl (by rw [if_neg hlit, if_pos hstr])
        · exact Or.inr ⟨h, by rw [if_neg hlit, if_neg hstr]⟩
    · exact Or.inl (dif_neg h)
  refine ⟨rfl, rfl, ?_, key⟩
  intro j hj
  show (on_leave_line inLit st.buffer idx trig)[j]? = st.buffer[j]?
  rcases key with hk | ⟨h, hk⟩
  · rw [hk]
  · rw [hk]
    exact List.getElem?_set_ne (Ne.symm hj)

/-- Witness for C3 at the pointer-move test scenario. -/
theorem c3_only_left_line_mutated_witness :
    (on_leave_line_ev (fun _ _ => false)
        ⟨["somecode = 1", "myvar = 2 "], 1, 10⟩ 1
        Trigger.POINTER_MOVE).cursorLine = 1 ∧
    (on_leave_line_ev (fun _ _ => false)
        ⟨["somecode = 1", "myvar = 2 "], 1, 10⟩ 1
        Trigger.POINTER_MOVE).cursorCol = 10 ∧
    (on_leave_line_ev (fun _ _ => false)
        ⟨["somecode = 1", "myvar = 2 "], 1, 10⟩ 1
        Trigger.POINTER_MOVE).buffer[0]? = some "somecode = 1" := by
  have h := c3_only_left_line_mutated (fun _ _ => false)
      ⟨["somecode = 1", "myvar = 2 "], 1, 10⟩ 1 Trigger.POINTER_MOVE
  refine ⟨h.1, h.2.1, ?_⟩
  rw [h.2.2.1 0 (by decide)]
  decide

/-- Claim C4: the number of lines in the buffer after `on_leave_line`
equals the number before it, for every buffer, index and trigger. -/
theorem c4_line_count_invariant (inLit : List String → Nat → Bool)
    (buffer : List String) (idx : Nat) (trig : Trigger) :
    (on_leave_line inLit buffer idx trig).length = buffer.length := by
  unfold on_leave_line
  split
  · split
    · rfl
    · split
      · rfl
      · exact List.length_set buffer idx _
  · rfl

/-- Claim C5: for the NEWLINE trigger, the line evaluated for stripping
is the pre-split line (its part before the cursor), and the newly
created line below — auto-indentation plus the text after the cursor —
is returned verbatim, never stripped.  In particular the single-line
buffer `"myvar = 2 "` left via NEWLINE becomes `"myvar = 2"` followed by
a new empty line (see the witness). -/
theorem c5_newline_strips_line_above (inLit : List String → Nat → Bool)
    (autoIndent : String) (st : EditorState) (line : String)
    (hline : st.buffer[st.cursorLine]? = some line)
    (hlit : inLit (st.buffer.take st.cursorLine
        ++ [String.mk (line.data.take st.cursorCol),
            autoIndent ++ String.mk (line.data.drop st.cursorCol)]
        ++ st.buffer.drop (st.cursorLine + 1)) st.cursorLine = false) :
    (pressEnter inLit autoIndent st).buffer =
      st.buffer.take st.cursorLine
        ++ [rstrip (String.mk (line.data.take st.cursorCol)),
            autoIndent ++ String.mk (line.data.drop st.cursorCol)]
        ++ st.buffer.drop (st.cursorLine + 1) := by
  have hlt : st.cursorLine < st.buffer.length := by
    by_contra hc
    rw [List.getElem?_eq_none (by omega)] at hline
    cases hline
  have hpre : (st.buffer.take st.cursorLine).length = st.cursorLine := by
    rw [List.length_take]
    omega
  have hlit2 : inLit (st.buffer.take st.cursorLine
      ++ [String.mk (line.data.take st.cursorCol),
          autoIndent ++ String.mk (line.data.drop st.cursorCol)]
      ++ st.buffer.drop (st.cursorLine + 1))
      (st.buffer.take st.cursorLine).length = false := by
    rw [hpre]
    exact hlit
  have hmid := on_leave_line_middle inLit (st.buffer.take st.cursorLine)
      (st.buffer.drop (st.cursorLine + 1))
      (String.mk (line.data.take st.cursorCol))
      (autoIndent ++ String.mk (line.data.drop st.cursorCol))
      Trigger.NEWLINE hlit2
  rw [hpre] at hmid
  unfold pressEnter
  rw [hline]
  exact hmid

/-- Witness for C5: the single-line test scenario `"myvar = 2 "` left
via NEWLINE, yielding the two lines `"myvar = 2"` and `""`. -/
theorem c5_newline_strips_line_above_witness :
    ((⟨["myvar = 2 "], 0, 10⟩ : EditorState).buffer[0]? = some "myvar = 2 ") ∧
    (pressEnter (fun _ _ => false) "" ⟨["myvar = 2 "], 0, 10⟩).buffer =
      ["myvar = 2", ""] := by
  have h := c5_newline_strips_line_above (fun _ _ => false) ""
      ⟨["myvar = 2 "], 0, 10⟩ "myvar = 2 " rfl rfl
  refine ⟨rfl, ?_⟩
  rw [h]
  decide

/-- Claim C6: a cursor relocation that keeps the cursor on the same line
never triggers stripping: the buffer, trailing whitespace included, is
unchanged by `moveCursor` whenever the target line equals the current
cursor line. -/
theorem c6_same_line_move_no_strip (inLit : List String → Nat → Bool)
    (st : EditorState) (newLine newCol : Nat) (trig : Trigger)
    (h : newLine = st.cursorLine) :
    (moveCursor inLit st newLine newCol trig).buffer = st.buffer := by
  unfold moveCursor
  rw [if_pos h]

/-- Witness for C6: the same-line pointer click (to column 0 of line 1)
and the horizontal arrow move (one column left) of the test scenarios,
both on `"somecode = 1\nmyvar = 2 "` with the cursor at the end. -/
theorem c6_same_line_move_no_strip_witness :
    ((1 : Nat) = (⟨["somecode = 1", "myvar = 2 "], 1, 10⟩ :
        EditorState).cursorLine) ∧
    (moveCursor (fun _ _ => false)
        ⟨["somecode = 1", "myvar = 2 "], 1, 10⟩ 1 0
        Trigger.POINTER_MOVE).buffer = ["somecode = 1", "myvar = 2 "] ∧
    (moveCursor (fun _ _ => false)
        ⟨["somecode = 1", "myvar = 2 "], 1, 10⟩ 1 9
        Trigger.ARROW_MOVE).buffer = ["somecode = 1", "myvar = 2 "] :=
  ⟨rfl,
    c6_same_line_move_no_strip (fun _ _ => false)
      ⟨["somecode = 1", "myvar = 2 "], 1, 10⟩ 1 0 Trigger.POINTER_MOVE rfl,
    c6_same_line_move_no_strip (fun _ _ => false)
      ⟨["somecode = 1", "myvar = 2 "], 1, 10⟩ 1 9 Trigger.ARROW_MOVE rfl⟩

/-- Claim C7: the stripping operation is idempotent — applying
`on_leave_line` twice for the same left-line event yields the same
buffer as applying it once, for every buffer, index, trigger and
string-literal oracle. -/
theorem c7_idempotent (inLit : List String → Nat → Bool)
    (buffer : List String) (idx : Nat) (trig : Trigger) :
    on_leave_line inLit (on_leave_line inLit buffer idx trig) idx trig =
      on_leave_line inLit buffer idx trig := by
  by_cases h : idx < buffer.length
  · by_cases hlit : inLit buffer idx
    · have h1 : on_leave_line inLit buffer idx trig = buffer := by
        unfold on_leave_line
        rw [dif_pos h, if_pos hlit]
      rw [h1]
      exact h1
    · by_cases hstr : rstrip buffer[idx] = buffer[idx]
      · have h1 : on_leave_line inLit buffer idx trig = buffer :=
          on_leave_line_eq_self inLit buffer idx trig fun _ => hstr
        rw [h1]
        exact h1
      · have h1 : on_leave_line inLit buffer idx trig =
            buffer.set idx (rstrip buffer[idx]) := by
          unfold on_leave_line
          rw [dif_pos h, if_neg hlit, if_neg hstr]
        rw [h1]
        apply on_leave_line_eq_self
        intro h2
        rw [List.getElem_set_self h2]
        exact rstrip_rstrip buffer[idx]
  · have h1 : on_leave_line inLit buffer idx trig = buffer := by
      unfold on_leave_line
      exact dif_neg h
    rw [h1]
    exact h1

/-- Claim C8: for every left-line index outside the buffer bounds,
`on_leave_line` is a silent no-op that returns the buffer unchanged; as
a total function it signals no error for any input. -/
theorem c8_out_of_bounds_noop (inLit : List String → Nat → Bool)
    (buffer : List String) (idx : Nat) (trig : Trigger)
    (h : buffer.length ≤ idx) :
    on_leave_line inLit buffer idx trig = buffer := by
  unfold on_leave_line
  exact dif_neg (by omega)

/-- Witness for C8: leaving line 5 of a one-line buffer is a no-op. -/
theorem c8_out_of_bounds_noop_witness :
    ((["myvar = 2 "] : List String).length ≤ 5) ∧
    on_leave_line (fun _ _ => false) ["myvar = 2 "] 5 Trigger.NEWLINE =
      ["myvar = 2 "] :=
  ⟨by decide,
    c8_out_of_bounds_noop (fun _ _ => false) ["myvar = 2 "] 5
      Trigger.NEWLINE (by decide)⟩

/-- Claim C9: leaving the all-whitespace auto-indent line of
`"for i in range(2):\n    "` via NEWLINE (cursor at its end, outside any
string literal) strips the left line to the empty string while the new
line below receives the auto-indentation, giving
`"for i in range(2):\n\n    "` with the cursor at column 4 of the new
line. -/
theorem c9_autoindent_line_scenario :
    pressEnter (fun _ _ => false) "    "
        ⟨["for i in range(2):", "    "], 1, 4⟩ =
      ⟨["for i in range(2):", "", "    "], 2, 4⟩ := by
  decide

/-! ## Claim about the installer artifact name -/

namespace Installers

/-- The computed `ARCH` agrees with the claim's reading of it. -/
theorem ARCH_eq_claim (targetPlatform : Option String) (machine : String) :
    ARCH targetPlatform machine = ARCH_claim targetPlatform machine := by
  unfold ARCH ARCH_claim
  by_cases htp : targetPlatform = some "osx-arm64"
  · rw [if_pos htp, if_pos htp]
  · rw [if_neg htp, if_neg htp]
    by_cases hm : machine = ""
    · rw [if_pos hm, if_pos hm]
      decide
    · rw [if_neg hm, if_neg hm]

/-- Splitting off the literal head of the interpolated file name. -/
theorem spyder_dash (x : String) : APP ++ "-" ++ x = "Spyder-" ++ x := by
  apply String.ext
  simp [String.data_append, APP]

end Installers

/-- Claim C10: whenever the build script recognizes the OS (it raises a
`RuntimeError` otherwise), the installer artifact name is
`"Spyder-<version>-<OS>-<ARCH>.<ext>"`, with `(ext, OS)` being
`("exe", "Windows")` when `os.name == "nt"`, else `("sh", "Linux")` when
`sys.platform` starts with `"linux"`, else `("pkg", "macOS")` when
`sys.platform == "darwin"`, and with `ARCH` equal to `"arm64"` when
`CONSTRUCTOR_TARGET_PLATFORM` is `"osx-arm64"` and otherwise the
lowercased machine name with `"amd64"` replaced by `"x86_64"`,
defaulting to `"generic"` for an empty machine name. -/
theorem c10_artifact_name (spyver osName sysPlatform machine : String)
    (targetPlatform : Option String) (ext os : String)
    (hos : Installers.EXT_OS osName sysPlatform = some (ext, os)) :
    Installers.OUTPUT_FILE_name spyver osName sysPlatform
        targetPlatform machine =
      some (Installers.artifactNameFormat spyver os
        (Installers.ARCH_claim targetPlatform machine) ext) ∧
    (Installers.WINDOWS osName = true → (ext, os) = ("exe", "Windows")) ∧
    (Installers.WINDOWS osName = false → Installers.LINUX sysPlatform = true →
      (ext, os) = ("sh", "Linux")) ∧
    (Installers.WINDOWS osName = false → Installers.LINUX sysPlatform = false →
      Installers.MACOS sysPlatform = true → (ext, os) = ("pkg", "macOS")) := by
  refine ⟨?_, ?_, ?_, ?_⟩
  · unfold Installers.OUTPUT_FILE_name
    rw [hos, Option.map_some']
    unfold Installers.artifactNameFormat
    rw [Installers.ARCH_eq_claim]
    rw [show ((ext, os).2 : String) = os from rfl,
      show ((ext, os).1 : String) = ext from rfl]
    rw [Installers.spyder_dash]
  · intro hw
    unfold Installers.EXT_OS at hos
    rw [if_pos hw] at hos
    exact (Option.some.inj hos).symm
  · intro hw hl
    unfold Installers.EXT_OS at hos
    rw [if_neg (by simp [hw]), if_pos hl] at hos
    exact (Option.some.inj hos).symm
  · intro hw hl hm
    unfold Installers.EXT_OS at hos
    rw [if_neg (by simp [hw]), if_neg (by simp [hl]), if_pos hm] at hos
    exact (Option.some.inj hos).symm

/-- Witness for C10: a Linux host with machine name `"AMD64"` and no
target-platform override. -/
theorem c10_artifact_name_witness :
    Installers.EXT_OS "posix" "linux" = some ("sh", "Linux") ∧
    Installers.OUTPUT_FILE_name "5.4.3" "posix" "linux" none "AMD64" =
      some "Spyder-5.4.3-Linux-x86_64.sh" := by
  have h := c10_artifact_name "5.4.3" "posix" "linux" "AMD64" none
      "sh" "Linux" (by decide)
  refine ⟨by decide, ?_⟩
  rw [h.1]
  decide

end Spyder
